import Mathlib

/-!
Verification of `twisted/web/static.py` (static file serving).

This file gives a shallow embedding of the pieces of `twisted.web.static`
that the verified properties are about:

* `isDangerous` and `File.getChild` (path-segment security),
* `File._parseRangeHeader` (Range header parsing),
* `File._rangeToOffsetAndSize` and `File._contentRange` (range arithmetic),
* `File._doSingleRangeRequest`, `File._doMultipleRangeRequest` and
  `File.makeProducer` (response setup),
* the three `StaticProducer` subclasses as explicit state machines,
* `DirectoryLister` ordering.

Python `str` values are modelled as Lean `String`, Python `int` as `Int`
(Python integers are unbounded, so no wrap-around modelling is needed),
`None`-or-value as `Option`, and raised exceptions as `Except` results.
Stateful request/file objects are modelled by explicit state records.
-/

namespace TwistedStatic

/-! ## Python string primitives used by the source -/

/-- Python whitespace recognised by `str.strip()`. -/
def pySpace (c : Char) : Bool :=
  c == ' ' || c == '\t' || c == '\n' || c == '\r' || c == '\x0b' || c == '\x0c'

/-- Strip Python whitespace from both ends of a character list. -/
def stripChars (l : List Char) : List Char :=
  ((l.dropWhile pySpace).reverse.dropWhile pySpace).reverse

/-- Python `s.strip()`. -/
def pyStrip (s : String) : String := ⟨stripChars s.data⟩

/-- Auxiliary for `pySplitChar`: split a character list on every occurrence
of `c`, keeping empty pieces (as Python `str.split(sep)` does). -/
def splitCharAux (c : Char) : List Char → List Char → List (List Char)
  | [], acc => [acc.reverse]
  | x :: xs, acc =>
      if x == c then acc.reverse :: splitCharAux c xs []
      else splitCharAux c xs (x :: acc)

/-- Python `s.split(c)` for a one-character separator. -/
def pySplitChar (c : Char) (s : String) : List String :=
  (splitCharAux c s.data []).map (fun l => ⟨l⟩)

/-- Auxiliary for `pySplitOnce`. -/
def splitOnceAux (c : Char) : List Char → List Char → Option (List Char × List Char)
  | [], _ => none
  | x :: xs, acc =>
      if x == c then some (acc.reverse, xs) else splitOnceAux c xs (x :: acc)

/-- Python `s.split(c, 1)` followed by unpacking into two names: `none`
models the `ValueError` raised when the separator is absent. -/
def pySplitOnce (c : Char) (s : String) : Option (String × String) :=
  (splitOnceAux c s.data []).map (fun p => (⟨p.1⟩, ⟨p.2⟩))

/-- Python `int(s)` on a decimal string: optional surrounding whitespace,
optional sign, at least one ASCII digit.  `none` models `ValueError`. -/
def pyInt (s : String) : Option Int :=
  match stripChars s.data with
  | [] => none
  | c :: rest =>
    let signDigits : Bool × List Char :=
      if c == '-' then (true, rest)
      else if c == '+' then (false, rest)
      else (false, c :: rest)
    if !signDigits.2.isEmpty && signDigits.2.all Char.isDigit then
      let n : Nat := signDigits.2.foldl (fun a d => a * 10 + (d.toNat - 48)) 0
      some (if signDigits.1 then -(n : Int) else (n : Int))
    else none

/-! ## Range header parsing (`File._parseRangeHeader`) -/

/-- Failure cases of `File._parseRangeHeader`; each constructor corresponds
to one `raise ValueError(...)` site in the source. -/
inductive RangeParseError where
  | missingEquals
  | unsupportedUnit
  | invalidByteRange
deriving DecidableEq, Repr

/-- Parse one side of a byte-range entry: the empty string yields `none`
(the Python code leaves the bound as `None`), otherwise the text must be a
valid integer. -/
def parseBound (s : String) : Except RangeParseError (Option Int) :=
  if s == "" then .ok none
  else
    match pyInt s with
    | some v => .ok (some v)
    | none => .error .invalidByteRange

/-- Parse one comma-separated entry of a Range header value, mirroring the
loop body of `File._parseRangeHeader`. -/
def parseEntry (entry : String) : Except RangeParseError (Option Int × Option Int) := do
  match pySplitOnce '-' entry with
  | none => .error .invalidByteRange
  | some (sRaw, eRaw) =>
    let start ← parseBound sRaw
    let stop ← parseBound eRaw
    match start, stop with
    | some s, some e =>
        if s > e then .error .invalidByteRange else .ok (some s, some e)
    | none, none => .error .invalidByteRange
    | _, _ => .ok (start, stop)

/-- Parse a list of entries in order, failing at the first invalid entry. -/
def parseEntries : List String → Except RangeParseError (List (Option Int × Option Int))
  | [] => .ok []
  | e :: rest => do
    let p ← parseEntry e
    let ps ← parseEntries rest
    return p :: ps

/-- Model of `File._parseRangeHeader`.  Splits on the first `=`, checks the
unit token, splits the value on commas, strips each entry, drops entries
that are empty after stripping, and parses the rest. -/
def parseRangeHeader (range : String) : Except RangeParseError (List (Option Int × Option Int)) :=
  match pySplitOnce '=' range with
  | none => .error .missingEquals
  | some (kind, value) =>
    if pyStrip kind != "bytes" then .error .unsupportedUnit
    else
      parseEntries (((pySplitChar ',' value).map pyStrip).filter (fun t => t != ""))

/-! ## Range arithmetic (`File._rangeToOffsetAndSize`, `File._contentRange`) -/

/-- Model of `File._rangeToOffsetAndSize`.  `size` is the value of
`self.getFileSize()`.  The `(none, none)` case cannot be produced by the
parser (the Python code would raise `TypeError` there); it is mapped to the
sentinel. -/
def rangeToOffsetAndSize (size : Int) (start stop : Option Int) : Int × Int :=
  let se : Int × Int :=
    match start, stop with
    | none, some e => (size - e, size)
    | some s, none => (s, size)
    | some s, some e => (s, if e < size then e + 1 else if e > size then size else e)
    | none, none => (0, 0)
  if se.1 ≥ size then (0, 0) else (se.1, se.2 - se.1)

/-- Model of `File._contentRange`: the header value
`bytes offset-(offset+size-1)/fileSize`. -/
def contentRange (offset size fileSize : Int) : String :=
  "bytes " ++ toString offset ++ "-" ++ toString (offset + size - 1) ++ "/" ++ toString fileSize

/-- Content-Range header value spelled from the specification side: the
explicit first byte position `a`, last byte position `b` and total `total`
of a `bytes a-b/total` header. -/
def contentRangeOf (a b total : Int) : String :=
  "bytes " ++ toString a ++ "-" ++ toString b ++ "/" ++ toString total

/-! ## The request object

Only the parts of `twisted.web.server.Request` that `static.py` drives are
modelled: response code, response headers (`setHeader` replaces any
previous value for the same name), body writes (tracked as a total byte
count), producer registration and `finish`. -/

structure Request where
  responseCode : Option Nat := none
  headers : List (String × String) := []
  bodyBytes : Nat := 0
  producerRegistered : Bool := false
  everRegistered : Bool := false
  finished : Bool := false
deriving DecidableEq, Repr

def setResponseCode (req : Request) (c : Nat) : Request :=
  { req with responseCode := some c }

def setHeader (req : Request) (n v : String) : Request :=
  { req with headers := (n, v) :: req.headers.filter (fun p => p.1 != n) }

def getHeaderVal (req : Request) (n : String) : Option String :=
  (req.headers.find? (fun p => p.1 == n)).map Prod.snd

def registerProducer (req : Request) : Request :=
  { req with producerRegistered := true, everRegistered := true }

def unregisterProducer (req : Request) : Request :=
  { req with producerRegistered := false }

/-- Model of `request.write(data)`: only the byte count of `data` is
tracked. -/
def writeBody (req : Request) (n : Nat) : Request :=
  { req with bodyBytes := req.bodyBytes + n }

def finishRequest (req : Request) : Request :=
  { req with finished := true }

/-! ## Response setup (`_doSingleRangeRequest`, `_doMultipleRangeRequest`,
`_setContentHeaders`, `makeProducer`) -/

/-- Model of `File._doSingleRangeRequest`: sets the response code and the
Content-Range header, and returns the `(offset, size)` to serve. -/
def doSingleRangeRequest (fileSize : Int) (req : Request)
    (byteRange : Option Int × Option Int) : Request × Int × Int :=
  let os := rangeToOffsetAndSize fileSize byteRange.1 byteRange.2
  if os.1 = 0 ∧ os.2 = 0 then
    (setHeader (setResponseCode req 416) "content-range"
      ("bytes */" ++ toString fileSize), os.1, os.2)
  else
    (setHeader (setResponseCode req 206) "content-range"
      (contentRange os.1 os.2 fileSize), os.1, os.2)

/-- Per-part separator text built by `File._doMultipleRangeRequest`. -/
def partSeparator (boundary contentType crange : String) : String :=
  "\r\n--" ++ boundary ++ "\r\nContent-type: " ++ contentType ++
    "\r\nContent-range: " ++ crange ++ "\r\n\r\n"

/-- One element of the value passed to `MultipleRangeStaticProducer` as
`rangeInfo`.  In the satisfiable case the Python code passes a list of
3-tuples; in the all-unsatisfiable case it passes the pair `([], '')`,
whose iteration yields the empty list and then the empty string, neither
of which can be unpacked into `(boundary, offset, size)`. -/
inductive PyRangeInfoItem where
  | triple (sep : String) (offset size : Int)
  | emptyList
  | pyStr (s : String)
deriving DecidableEq, Repr

/-- The loop of `File._doMultipleRangeRequest`: builds the list of
`(partSeparator, partOffset, partSize)` triples for the satisfiable
ranges, the accumulated content length, and whether any range matched. -/
def buildRangeInfo (fileSize : Int) (boundary contentType : String) :
    List (Option Int × Option Int) → List (String × Int × Int) × Int × Bool
  | [] => ([], 0, false)
  | br :: rest =>
    let os := rangeToOffsetAndSize fileSize br.1 br.2
    let acc := buildRangeInfo fileSize boundary contentType rest
    if os.1 = 0 ∧ os.2 = 0 then acc
    else
      let sep := partSeparator boundary contentType (contentRange os.1 os.2 fileSize)
      ((sep, os.1, os.2) :: acc.1, os.2 + (sep.length : Int) + acc.2.1, true)

/-- Model of `File._doMultipleRangeRequest`.  `boundary` stands for the
time/pid-derived boundary token; `contentType` is `self.type or 'bytes'`.
Returns the updated request and the object passed to the producer as
`rangeInfo` (see `PyRangeInfoItem`). -/
def doMultipleRangeRequest (fileSize : Int) (boundary contentType : String)
    (req : Request) (byteRanges : List (Option Int × Option Int)) :
    Request × List PyRangeInfoItem :=
  let acc := buildRangeInfo fileSize boundary contentType byteRanges
  if acc.2.2 = false then
    (setHeader (setHeader (setResponseCode req 416) "content-length" "0")
        "content-range" ("bytes */" ++ toString fileSize),
      [.emptyList, .pyStr ""])
  else
    let finalBoundary := "\r\n--" ++ boundary ++ "--\r\n"
    let info := acc.1 ++ [(finalBoundary, 0, 0)]
    (setHeader (setHeader (setResponseCode req 206) "content-type"
          ("multipart/byteranges; boundary=\"" ++ boundary ++ "\""))
        "content-length" (toString (acc.2.1 + (finalBoundary.length : Int))),
      info.map (fun t => .triple t.1 t.2.1 t.2.2))

/-- Model of `File._setContentHeaders`.  `fileType` and `fileEncoding`
model `self.type` and `self.encoding` (`None` when absent). -/
def setContentHeaders (req : Request) (size : Int)
    (fileType fileEncoding : Option String) : Request :=
  let r1 := setHeader req "content-length" (toString size)
  let r2 := match fileType with
    | some t => setHeader r1 "content-type" t
    | none => r1
  match fileEncoding with
  | some e => setHeader r2 "content-encoding" e
  | none => r2

/-- The producer strategy chosen by `File.makeProducer`, together with its
constructor arguments. -/
inductive Producer where
  | noRange
  | singleRange (offset size : Int)
  | multipleRange (rangeInfo : List PyRangeInfoItem)
deriving DecidableEq, Repr

/-- Model of `File.makeProducer`.  `fileSize` is `self.getFileSize()`,
`rangeHeader` the value of the Range request header (or `none`), and
`boundary` the boundary token used for multipart responses. -/
def makeProducer (fileSize : Int) (fileType fileEncoding : Option String)
    (boundary : String) (req : Request) (rangeHeader : Option String) :
    Request × Producer :=
  match rangeHeader with
  | none =>
      (setResponseCode (setContentHeaders req fileSize fileType fileEncoding) 200,
        .noRange)
  | some byteRange =>
    match parseRangeHeader byteRange with
    | .error _ =>
        (setResponseCode (setContentHeaders req fileSize fileType fileEncoding) 200,
          .noRange)
    | .ok parsedRanges =>
      match parsedRanges with
      | [r] =>
        let rs := doSingleRangeRequest fileSize req r
        (setContentHeaders rs.1 rs.2.2 fileType fileEncoding,
          .singleRange rs.2.1 rs.2.2)
      | rs =>
        let contentType := fileType.getD "bytes"
        let ri := doMultipleRangeRequest fileSize boundary contentType req rs
        (ri.1, .multipleRange ri.2)

/-! ## File objects

A Python file object opened for reading: `len` is the number of bytes in
the file, `pos` the current position.  `read n` returns (the length of)
the bytes obtained: `min n available` for a non-negative argument, and all
remaining bytes for a negative argument, as Python `file.read` does.
`close` is idempotent; `releases` counts how many times the underlying
handle was actually released. -/

structure PyFile where
  len : Int := 0
  pos : Int := 0
  closed : Bool := false
  releases : Nat := 0
  ioError : Bool := false
deriving DecidableEq, Repr

/-- Python `file.seek(o)`.  A negative target raises `IOError` on a real
Python 2 file; the `ioError` flag records that the run has crashed at that
point (the producer theorems carry the non-negative offsets that keep the
flag `false`, so no conclusion is drawn from a crashed run). -/
def PyFile.seek (f : PyFile) (o : Int) : PyFile :=
  if o < 0 then { f with ioError := true } else { f with pos := o }

def PyFile.read (f : PyFile) (n : Int) : PyFile × Int :=
  let avail := max (f.len - f.pos) 0
  let k := if n < 0 then avail else min n avail
  ({ f with pos := f.pos + k }, k)

def PyFile.close (f : PyFile) : PyFile :=
  if f.closed then f else { f with closed := true, releases := f.releases + 1 }

/-! ## StaticProducer and its subclasses

Each producer is modelled as a state record; `resumeProducing` is a step
function on that state, invoked repeatedly by the transport.  `attached`
models `self.request is not None`. -/

structure ProducerState where
  req : Request
  attached : Bool := true
  file : PyFile
  offset : Int := 0
  size : Int := 0
  bytesWritten : Int := 0
deriving DecidableEq, Repr

/-- Model of `StaticProducer.stopProducing`: close the file object and
drop the request reference. -/
def stopProducing (p : ProducerState) : ProducerState :=
  { p with file := p.file.close, attached := false }

/-- Model of `NoRangeStaticProducer.start`. -/
def noRangeStart (p : ProducerState) : ProducerState :=
  { p with req := registerProducer p.req }

/-- Model of `NoRangeStaticProducer.resumeProducing`: read a buffer-sized
chunk; a non-empty read is written to the request, an empty read finishes
the response and stops the producer. -/
def noRangeResume (bufferSize : Int) (p : ProducerState) : ProducerState :=
  if p.attached = false then p
  else
    let rd := p.file.read bufferSize
    if rd.2 ≠ 0 then
      { p with file := rd.1, req := writeBody p.req rd.2.toNat }
    else
      stopProducing { p with
        file := rd.1
        req := finishRequest (unregisterProducer p.req) }

/-- Iterate `noRangeResume` the given number of times (the transport calls
`resumeProducing` whenever it is ready for more data; once the producer
has detached itself the step is the identity). -/
def noRangeRun (bufferSize : Int) : Nat → ProducerState → ProducerState
  | 0, p => p
  | fuel + 1, p => noRangeRun bufferSize fuel (noRangeResume bufferSize p)

/-- Model of `SingleRangeStaticProducer.start`: seek to the range offset,
reset the progress counter and register with the request. -/
def singleRangeStart (p : ProducerState) : ProducerState :=
  { p with
    file := p.file.seek p.offset
    bytesWritten := 0
    req := registerProducer p.req }

/-- Model of `SingleRangeStaticProducer.resumeProducing`. -/
def singleRangeResume (bufferSize : Int) (p : ProducerState) : ProducerState :=
  if p.attached = false then p
  else
    let rd := p.file.read (min bufferSize (p.size - p.bytesWritten))
    let p1 :=
      if rd.2 ≠ 0 then
        { p with
          file := rd.1
          bytesWritten := p.bytesWritten + rd.2
          req := writeBody p.req rd.2.toNat }
      else { p with file := rd.1 }
    if p1.attached = true ∧ p1.bytesWritten = p1.size then
      stopProducing { p1 with req := finishRequest (unregisterProducer p1.req) }
    else p1

/-- Iterate `singleRangeResume`. -/
def singleRangeRun (bufferSize : Int) : Nat → ProducerState → ProducerState
  | 0, p => p
  | fuel + 1, p => singleRangeRun bufferSize fuel (singleRangeResume bufferSize p)

/-! ## MultipleRangeStaticProducer -/

/-- Python exceptions that `MultipleRangeStaticProducer._nextRange` can
raise: `StopIteration` from the exhausted iterator (caught by the caller
inside `resumeProducing`, but not inside `start`), and `ValueError` from
unpacking an iterated element that is not a 3-tuple. -/
inductive PyError where
  | valueError
  | stopIteration
deriving DecidableEq, Repr

/-- Model of `MultipleRangeStaticProducer._nextRange`: take the next
element of the `rangeInfo` iterator, unpack it into
`(partBoundary, partOffset, partSize)` and seek the file to the part
offset. -/
def nextRange (items : List PyRangeInfoItem) (file : PyFile) :
    Except PyError (String × Int × List PyRangeInfoItem × PyFile) :=
  match items with
  | [] => .error .stopIteration
  | .triple sep off sz :: rest => .ok (sep, sz, rest, file.seek off)
  | .emptyList :: _ => .error .valueError
  | .pyStr _ :: _ => .error .valueError

/-- State of a running `MultipleRangeStaticProducer`.  `completedParts`
records, for each file range already fully emitted, the number of file
bytes that were read for it (instrumentation used only by theorems; it
does not influence the transitions). -/
structure MultiState where
  req : Request
  attached : Bool := true
  file : PyFile
  items : List PyRangeInfoItem
  partBoundary : Option String := none
  partSize : Int := 0
  partBytesWritten : Int := 0
  completedParts : List Int := []
deriving DecidableEq, Repr

/-- Model of `MultipleRangeStaticProducer.start`: an exception escaping
`_nextRange` propagates out of `start` (and out of `render_GET`). -/
def multiStart (req : Request) (file : PyFile) (rangeInfo : List PyRangeInfoItem) :
    Except PyError MultiState :=
  match nextRange rangeInfo file with
  | .error e => .error e
  | .ok (sep, sz, rest, f) =>
      .ok { req := registerProducer req, file := f, items := rest
            partBoundary := some sep, partSize := sz, partBytesWritten := 0 }

/-- The `while dataLength < bufferSize` loop body of
`MultipleRangeStaticProducer.resumeProducing`.  `fuel` bounds the number
of iterations (the theorems are stated with enough fuel for the loop to
reach its real exit).  The source catches only `StopIteration` around
`_nextRange`; a `ValueError` raised there (a non-3-tuple `rangeInfo`
element) propagates out of the loop and out of `resumeProducing`, modelled
by the `.error` result.  A normal result carries the state, the
accumulated `dataLength`, the `done` flag, and whether the loop exited by
itself (`true`) rather than by running out of fuel. -/
def multiLoop (bufferSize : Int) :
    Nat → MultiState → Int → Except PyError (MultiState × Int × Bool × Bool)
  | 0, st, dataLength => .ok (st, dataLength, false, false)
  | fuel + 1, st, dataLength =>
    if dataLength < bufferSize then
      let bd : MultiState × Int :=
        match st.partBoundary with
        | some b => ({ st with partBoundary := none }, dataLength + (b.length : Int))
        | none => (st, dataLength)
      let st1 := bd.1
      let d1 := bd.2
      let rd := st1.file.read (min (bufferSize - d1) (st1.partSize - st1.partBytesWritten))
      let st2 := { st1 with
        file := rd.1
        partBytesWritten := st1.partBytesWritten + rd.2 }
      let d2 := d1 + rd.2
      if st2.attached = true ∧ st2.partBytesWritten = st2.partSize then
        match nextRange st2.items st2.file with
        | .ok (sep, sz, rest, f3) =>
            multiLoop bufferSize fuel
              { st2 with
                file := f3
                items := rest
                partBoundary := some sep
                partSize := sz
                partBytesWritten := 0
                completedParts := st2.completedParts ++ [st2.partBytesWritten] } d2
        | .error .stopIteration => .ok (st2, d2, true, true)
        | .error .valueError => .error .valueError
      else
        multiLoop bufferSize fuel st2 d2
    else .ok (st, dataLength, false, true)

/-- Model of `MultipleRangeStaticProducer.resumeProducing`: run the loop,
write the accumulated data, and on `done` unregister, finish and drop the
request reference (note the source does not call `stopProducing` here).
An exception escaping the loop propagates out of `resumeProducing` before
anything is written. -/
def multiResume (bufferSize : Int) (fuel : Nat) (st : MultiState) :
    Except PyError MultiState :=
  if st.attached = false then .ok st
  else
    match multiLoop bufferSize fuel st 0 with
    | .error e => .error e
    | .ok lp =>
      let st1 := { lp.1 with req := writeBody lp.1.req lp.2.1.toNat }
      if lp.2.2.1 then
        .ok { st1 with
          req := finishRequest (unregisterProducer st1.req)
          attached := false }
      else .ok st1

/-! ## Path resolution (`isDangerous`, `File.getChild`)

The filesystem is modelled as two predicates on absolute path strings.
`sep` stands for `os.sep` (the host path separator; `/` on POSIX). -/

structure FileSystem where
  pathExists : String → Bool
  pathIsDir : String → Bool

/-- Model of `isDangerous` from the source:
`path == '..' or '/' in path or os.sep in path` (membership of a
one-character string in a Python string is character membership). -/
def isDangerous (sep : Char) (path : String) : Bool :=
  path == ".." || path.data.contains '/' || path.data.contains sep

/-- Modelled from the spec: `twisted.python.filepath.FilePath.child` is not
under `src/` (only its caller `File.getChild` is).  Per spec section 4.1, a
segment equal to `".."` or containing any path-separator character (the
URL separator `/` or the host separator `os.sep`) is rejected with
`InsecurePath`; otherwise the segment names a child of the current
directory. -/
def filePathChild (sep : Char) (base seg : String) : Except Unit String :=
  if seg == ".." || seg.data.contains '/' || seg.data.contains sep then .error ()
  else .ok (base ++ "/" ++ seg)

/-- Modelled from the spec: `FilePath.childSearchPreauth` is not under
`src/`.  Per spec section 4.1, search the index names in order for the
first whose child of `base` exists. -/
def childSearchPreauth (fs : FileSystem) (base : String) (names : List String) :
    Option String :=
  (names.find? (fun n => fs.pathExists (base ++ "/" ++ n))).map
    (fun n => base ++ "/" ++ n)

/-- Modelled from the spec: `FilePath.siblingExtensionSearch` is not under
`src/`.  Per spec section 4.1, for each ignored extension in configured
order test `path + ext`; the first existing candidate wins. -/
def siblingExtensionSearch (fs : FileSystem) (path : String) (exts : List String) :
    Option String :=
  (exts.find? (fun e => fs.pathExists (path ++ e))).map (fun e => path ++ e)

/-- Python `os.path.splitext` helper: split a character list at its last
dot, if any. -/
def splitAtLastDot : List Char → Option (List Char × List Char)
  | [] => none
  | c :: rest =>
    match splitAtLastDot rest with
    | some (pre, ext) => some (c :: pre, ext)
    | none => if c == '.' then some ([], '.' :: rest) else none

/-- Model of `os.path.splitext` (POSIX): split off the extension after the
last dot of the basename, unless every character of the basename before
that dot is itself a dot. -/
def splitext (p : String) : String × String :=
  let l := p.data
  let base := (l.reverse.takeWhile (fun c => c != '/')).reverse
  let dir := l.take (l.length - base.length)
  match splitAtLastDot base with
  | some (pre, ext) =>
      if pre.any (fun c => c != '.') then (⟨dir ++ pre⟩, ⟨ext⟩) else (p, "")
  | none => (p, "")

/-- Configuration carried by a `File` resource that `getChild` consults:
index names, ignored extensions, and the extensions having a registered
processor (the processor map is modelled by its key set, since only the
dispatch decision is in scope). -/
structure FileCfg where
  indexNames : List String := ["index", "index.html", "index.htm", "index.rpy"]
  ignoredExts : List String := []
  processorExts : List String := []

/-- Outcome of `File.getChild`. -/
inductive ChildResult where
  | childNotFound
  | directoryListing (path : String)
  | processorResource (path : String)
  | similarFile (path : String)
deriving DecidableEq, Repr

/-- Model of `File.getChild` (POSIX branch: the win32 case-insensitive
processor lookup is not modelled).  `selfPath` is the path of this `File`
resource; `path` the request segment. -/
def getChild (sep : Char) (fs : FileSystem) (cfg : FileCfg)
    (selfPath path : String) : ChildResult :=
  if fs.pathIsDir selfPath = false then .childNotFound
  else
    let step : Except ChildResult String :=
      if path ≠ "" then
        match filePathChild sep selfPath path with
        | .error _ => .error .childNotFound
        | .ok fp => .ok fp
      else
        match childSearchPreauth fs selfPath cfg.indexNames with
        | none => .error (.directoryListing selfPath)
        | some fp => .ok fp
    match step with
    | .error r => r
    | .ok fp =>
      let found : Option String :=
        if fs.pathExists fp then some fp
        else siblingExtensionSearch fs fp cfg.ignoredExts
      match found with
      | none => .childNotFound
      | some f =>
        if cfg.processorExts.contains (splitext f).2 then .processorResource f
        else .similarFile f

/-! ## Type resolution and directory listing -/

/-- Model of `getTypeAndEncoding` from the source.  The type and encoding
tables are association lists; lookups are on the lower-cased extension. -/
def getTypeAndEncoding (filename : String) (types encodings : List (String × String))
    (defaultType : String) : String × Option String :=
  let pe := splitext filename
  let ext0 := pe.2.toLower
  let extEnc : String × Option String :=
    match encodings.lookup ext0 with
    | some enc => ((splitext pe.1).2.toLower, some enc)
    | none => (ext0, none)
  ((types.lookup extEnc.1).getD defaultType, extEnc.2)

/-- Model of `formatFileSize`: binary units, integer-truncated. -/
def formatFileSize (size : Nat) : String :=
  if size < 1024 then toString size ++ "B"
  else if size < 1024 ^ 2 then toString (size / 1024) ++ "K"
  else if size < 1024 ^ 3 then toString (size / 1024 ^ 2) ++ "M"
  else toString (size / 1024 ^ 3) ++ "G"

/-- One filesystem entry seen by `DirectoryLister`: its basename, whether
it is a directory, and whether `getsize` succeeds (an entry whose stat
fails with `OSError` is skipped by the listing). -/
structure DirEntry where
  name : String
  isdir : Bool
  sizeOk : Bool := true
  size : Nat := 0
deriving DecidableEq, Repr

/-- One rendered table row.  `srcName` is instrumentation recording which
entry the row came from; the remaining fields mirror the dictionary built
by `DirectoryLister._getFilesAndDirectories`. -/
structure Row where
  srcName : String
  text : String
  href : String
  size : String
  rowType : String
  encoding : String
deriving DecidableEq, Repr

/-- Model of `DirectoryLister._getFilesAndDirectories`.  `quote` models
`urllib.quote` and `escape` models `cgi.escape` (external library
functions, kept abstract).  Returns `(dirs, files)` in iteration order. -/
def getFilesAndDirectories (quote escape : String → String)
    (contentTypes contentEncodings : List (String × String)) (defaultType : String) :
    List DirEntry → List Row × List Row
  | [] => ([], [])
  | e :: rest =>
    let acc := getFilesAndDirectories quote escape contentTypes contentEncodings
      defaultType rest
    if e.isdir then
      ({ srcName := e.name, text := escape e.name ++ "/", href := quote e.name ++ "/",
         size := "", rowType := "[Directory]", encoding := "" } :: acc.1, acc.2)
    else
      let te := getTypeAndEncoding e.name contentTypes contentEncodings defaultType
      if e.sizeOk then
        (acc.1,
          { srcName := e.name, text := escape e.name, href := quote e.name,
            rowType := "[" ++ te.1 ++ "]",
            encoding := match te.2 with | some en => "[" ++ en ++ "]" | none => ""
            size := formatFileSize e.size } :: acc.2)
      else (acc.1, acc.2)

/-- Lexicographic comparison of character lists, mirroring Python 2
byte-wise string comparison (which `sorted` uses on the listed paths). -/
def lexLe : List Char → List Char → Bool
  | [], _ => true
  | _ :: _, [] => false
  | a :: as, b :: bs => if a < b then true else if a = b then lexLe as bs else false

/-- Name order on directory entries. -/
def nameLe (a b : DirEntry) : Bool := lexLe a.name.data b.name.data

/-- The entry order that `DirectoryLister.render` iterates over: the
sorted full listing when `self.dirs is None` (Python `sorted` is a stable
sort by the path string; any stable sort by the same order yields the same
list, so it is modelled by insertion sort), otherwise the children named
by the caller, in the order given. -/
def renderDirectory (children : List DirEntry) (childOf : String → DirEntry) :
    Option (List String) → List DirEntry
  | none => children.insertionSort (fun a b => nameLe a b = true)
  | some ds => ds.map childOf

/-- The rows of the table rendered by `DirectoryLister.render`, in page
order: the directory rows followed by the file rows. -/
def listerTable (quote escape : String → String)
    (contentTypes contentEncodings : List (String × String)) (defaultType : String)
    (children : List DirEntry) (childOf : String → DirEntry)
    (dirs : Option (List String)) : List Row :=
  let df := getFilesAndDirectories quote escape contentTypes contentEncodings
    defaultType (renderDirectory children childOf dirs)
  df.1 ++ df.2

/-! ## Helper lemmas -/

theorem getHeaderVal_setHeader_self (r : Request) (n v : String) :
    getHeaderVal (setHeader r n v) n = some v := by
  simp [getHeaderVal, setHeader]

theorem find?_filter_ne (l : List (String × String)) (n m : String) (h : m ≠ n) :
    (l.filter (fun p => p.1 != n)).find? (fun p => p.1 == m) =
      l.find? (fun p => p.1 == m) := by
  induction l with
  | nil => rfl
  | cons a t ih =>
    by_cases ha : a.1 = n
    · have h1 : (a.1 != n) = false := by simp [ha]
      have h2 : (a.1 == m) = false := by simp [ha]; exact fun hc => h hc.symm
      simp [List.filter_cons, List.find?_cons, h1, h2, ih]
    · have h1 : (a.1 != n) = true := by simp [ha]
      simp only [List.filter_cons, h1, if_true, List.find?_cons]
      cases hm : (a.1 == m) <;> simp [hm, ih]

theorem getHeaderVal_setHeader_ne (r : Request) (n m v : String) (h : m ≠ n) :
    getHeaderVal (setHeader r n v) m = getHeaderVal r m := by
  have h2 : (n == m) = false := by
    simp only [beq_eq_false_iff_ne, ne_eq]
    exact fun hc => h hc.symm
  simp [getHeaderVal, setHeader, List.find?_cons, h2, find?_filter_ne r.headers n m h]

/-! ## C2: bounds of the resolved range -/

/-- C2: for every valid parsed range pair (at most one side omitted) and
every file size, `_rangeToOffsetAndSize` never returns an offset greater
than the file size, nor an offset-plus-size greater than the file size,
except for the `(0, 0)` sentinel. -/
theorem rangeToOffsetAndSize_bounds (size : Int) (start stop : Option Int)
    (_hsize : 0 ≤ size) (hpair : start.isSome = true ∨ stop.isSome = true) :
    rangeToOffsetAndSize size start stop = (0, 0) ∨
      ((rangeToOffsetAndSize size start stop).1 ≤ size ∧
        (rangeToOffsetAndSize size start stop).1 +
          (rangeToOffsetAndSize size start stop).2 ≤ size) := by
  rcases start with _ | s <;> rcases stop with _ | e <;>
    simp only [rangeToOffsetAndSize] <;> split_ifs <;>
    first
      | (left; rfl)
      | (right; constructor <;> simp_all <;> omega)

/-- Witness for C2 at a concrete input. -/
theorem rangeToOffsetAndSize_bounds_witness :
    rangeToOffsetAndSize 500 (some 0) (some 99) = (0, 0) ∨
      ((rangeToOffsetAndSize 500 (some 0) (some 99)).1 ≤ 500 ∧
        (rangeToOffsetAndSize 500 (some 0) (some 99)).1 +
          (rangeToOffsetAndSize 500 (some 0) (some 99)).2 ≤ 500) :=
  rangeToOffsetAndSize_bounds 500 (some 0) (some 99) (by decide) (by left; rfl)

/-! ## C10: overlong suffix ranges -/

/-- C10: a suffix range whose length exceeds the file size resolves to
`(size - e, e)` — a negative offset and a size larger than the file —
rather than being clamped or rejected, and the Content-Range header built
from it starts at that negative position. -/
theorem rangeToOffsetAndSize_overlongSuffix (size e : Int) (h0 : 0 ≤ size)
    (h : size < e) :
    rangeToOffsetAndSize size none (some e) = (size - e, e) ∧
      size - e < 0 ∧ size < e ∧
      contentRange (size - e) e size = contentRangeOf (size - e) (size - 1) size := by
  have h1 : ¬ (size - e ≥ size) := by omega
  refine ⟨?_, by omega, h, ?_⟩
  · simp only [rangeToOffsetAndSize, if_neg h1]
    have h2 : size - (size - e) = e := by omega
    rw [h2]
  · simp only [contentRange, contentRangeOf]
    have : size - e + e - 1 = size - 1 := by omega
    rw [this]

/-- Witness for C10: a 600-byte suffix of a 500-byte file. -/
theorem rangeToOffsetAndSize_overlongSuffix_witness :
    rangeToOffsetAndSize 500 none (some 600) = (-100, 600) ∧
      (-100 : Int) < 0 ∧ (500 : Int) < 600 ∧
      contentRange (-100) 600 500 = contentRangeOf (-100) 499 500 := by
  have h := rangeToOffsetAndSize_overlongSuffix 500 600 (by decide) (by decide)
  simpa using h

/-! ## C6: range parsing with no entries -/

/-- C6 fails on the code: a `bytes` header whose entries are all empty
after stripping parses successfully to the empty list instead of failing,
contradicting the docstring of `_parseRangeHeader` (a list of length at
least one, or `ValueError`). -/
theorem parseRangeHeader_emptyEntries :
    parseRangeHeader "bytes=" = .ok [] ∧ parseRangeHeader "bytes=, ," = .ok [] := by
  constructor <;> rfl

/-! ## C8: idempotence of the producer stop path -/

/-- Closing a Python file object twice releases the handle only once. -/
theorem PyFile.close_close (f : PyFile) : f.close.close = f.close := by
  unfold PyFile.close
  by_cases h : f.closed = true <;> simp [h]

/-- C8: invoking `stopProducing` twice has the same effect as invoking it
once; starting from an open file, the underlying handle is released
exactly once no matter how many times the stop path runs. -/
theorem stopProducing_idempotent (p : ProducerState) (h : p.file.closed = false) :
    stopProducing (stopProducing p) = stopProducing p ∧
      (stopProducing p).file.releases = p.file.releases + 1 ∧
      (stopProducing (stopProducing p)).file.releases = p.file.releases + 1 := by
  refine ⟨?_, ?_, ?_⟩ <;>
    simp [stopProducing, PyFile.close_close, PyFile.close, h]

/-- Witness for C8 on a fresh producer state. -/
theorem stopProducing_idempotent_witness :
    stopProducing (stopProducing { req := {}, file := {} }) =
        stopProducing { req := {}, file := {} } ∧
      (stopProducing { req := {}, file := {} }).file.releases = 0 + 1 ∧
      (stopProducing (stopProducing { req := {}, file := {} })).file.releases = 0 + 1 :=
  stopProducing_idempotent { req := {}, file := {} } rfl

/-! ## C1: dangerous path segments -/

/-- C1: every path segment equal to `..` or containing a separator
character resolves to the not-found outcome, for every filesystem state. -/
theorem getChild_dangerous (sep : Char) (fs : FileSystem) (cfg : FileCfg)
    (selfPath segment : String) (h : isDangerous sep segment = true) :
    getChild sep fs cfg selfPath segment = .childNotFound := by
  unfold isDangerous at h
  have hne : segment ≠ "" := by
    intro he
    subst he
    simp [List.contains] at h
  cases hd : fs.pathIsDir selfPath with
  | false => simp [getChild, hd]
  | true =>
    have hP : (segment = ".." ∨ '/' ∈ segment.data) ∨ sep ∈ segment.data := by
      simpa using h
    simp only [getChild, hd]
    simp [filePathChild, hne, hP, or_assoc]

/-- Witness for C1: the `..` segment on an all-existing filesystem. -/
theorem getChild_dangerous_witness :
    getChild '/' ⟨fun _ => true, fun _ => true⟩ {} "/srv" ".." = .childNotFound :=
  getChild_dangerous '/' ⟨fun _ => true, fun _ => true⟩ {} "/srv" ".." rfl

/-! ## Producer run lemmas -/

theorem PyFile.read_fst_len (f : PyFile) (n : Int) : (f.read n).1.len = f.len := by
  simp [PyFile.read]

theorem PyFile.read_fst_pos (f : PyFile) (n : Int) :
    (f.read n).1.pos = f.pos + (f.read n).2 := by
  simp [PyFile.read]

theorem PyFile.read_fst_closed (f : PyFile) (n : Int) :
    (f.read n).1.closed = f.closed := by
  simp [PyFile.read]

theorem PyFile.read_snd (f : PyFile) (n : Int) :
    (f.read n).2 = if n < 0 then max (f.len - f.pos) 0 else min n (max (f.len - f.pos) 0) := by
  simp [PyFile.read]

theorem PyFile.seek_len (f : PyFile) (o : Int) : (f.seek o).len = f.len := by
  unfold PyFile.seek
  split <;> rfl

theorem PyFile.seek_pos (f : PyFile) (o : Int) (h : 0 ≤ o) : (f.seek o).pos = o := by
  unfold PyFile.seek
  rw [if_neg (by omega)]

theorem PyFile.close_closed (f : PyFile) : f.close.closed = true := by
  unfold PyFile.close
  split <;> simp_all

theorem noRangeRun_detached (buf : Int) (fuel : Nat) (p : ProducerState)
    (h : p.attached = false) : noRangeRun buf fuel p = p := by
  induction fuel with
  | zero => rfl
  | succ n ih => simp [noRangeRun, noRangeResume, h, ih]

theorem singleRangeRun_detached (buf : Int) (fuel : Nat) (p : ProducerState)
    (h : p.attached = false) : singleRangeRun buf fuel p = p := by
  induction fuel with
  | zero => rfl
  | succ n ih => simp [singleRangeRun, singleRangeResume, h, ih]

/-- The whole-file producer, run with enough fuel, writes exactly the
bytes remaining in the file, then finishes the request, unregisters and
closes the file. -/
theorem noRangeRun_streams (buf : Int) (hbuf : 0 < buf) :
    ∀ (fuel : Nat) (p : ProducerState), p.attached = true →
      p.file.pos ≤ p.file.len →
      (p.file.len - p.file.pos).toNat < fuel →
      (noRangeRun buf fuel p).req.bodyBytes =
          p.req.bodyBytes + (p.file.len - p.file.pos).toNat ∧
        (noRangeRun buf fuel p).req.finished = true ∧
        (noRangeRun buf fuel p).req.producerRegistered = false ∧
        (noRangeRun buf fuel p).attached = false ∧
        (noRangeRun buf fuel p).file.closed = true ∧
        (noRangeRun buf fuel p).req.everRegistered = p.req.everRegistered := by
  intro fuel
  induction fuel with
  | zero => intro p _ _ hf; omega
  | succ n ih =>
    intro p hatt hpos hf
    by_cases hrem : p.file.pos = p.file.len
    · have hk : (p.file.read buf).2 = 0 := by
        rw [PyFile.read_snd, if_neg (by omega)]
        omega
      have hres : noRangeResume buf p =
          stopProducing { p with
            file := (p.file.read buf).1
            req := finishRequest (unregisterProducer p.req) } := by
        simp [noRangeResume, hatt, hk]
      have hdet :
          (stopProducing { p with
            file := (p.file.read buf).1
            req := finishRequest (unregisterProducer p.req) }).attached = false := rfl
      simp only [noRangeRun, hres, noRangeRun_detached buf n _ hdet]
      refine ⟨?_, rfl, rfl, rfl, ?_, rfl⟩
      · simp [stopProducing, finishRequest, unregisterProducer]
        omega
      · simp [stopProducing, PyFile.close_closed]
    · have hk : (p.file.read buf).2 = min buf (p.file.len - p.file.pos) := by
        rw [PyFile.read_snd, if_neg (by omega)]
        omega
      have hkpos : 0 < (p.file.read buf).2 := by rw [hk]; omega
      have hres : noRangeResume buf p =
          { p with
            file := (p.file.read buf).1
            req := writeBody p.req (p.file.read buf).2.toNat } := by
        simp [noRangeResume, hatt]
        omega
      obtain ⟨h1, h2, h3, h4, h5, h6⟩ := ih { p with
          file := (p.file.read buf).1
          req := writeBody p.req (p.file.read buf).2.toNat }
        (by simp [hatt])
        (by simp [PyFile.read_fst_len, PyFile.read_fst_pos]; omega)
        (by simp [PyFile.read_fst_len, PyFile.read_fst_pos]; omega)
      simp only [noRangeRun, hres]
      refine ⟨?_, h2, h3, h4, h5, ?_⟩
      · rw [h1]
        simp [writeBody, PyFile.read_fst_len, PyFile.read_fst_pos]
        omega
      · rw [h6]
        simp [writeBody]

/-- The single-range producer, run with enough fuel from a state whose
file can supply the requested bytes, writes exactly `size` bytes, then
finishes the request, unregisters and closes the file. -/
theorem singleRangeRun_streams (buf : Int) (hbuf : 0 < buf) :
    ∀ (fuel : Nat) (p : ProducerState), p.attached = true →
      0 ≤ p.bytesWritten → p.bytesWritten ≤ p.size →
      p.file.pos = p.offset + p.bytesWritten →
      p.offset + p.size ≤ p.file.len →
      (p.size - p.bytesWritten).toNat < fuel →
      (singleRangeRun buf fuel p).req.bodyBytes =
          p.req.bodyBytes + (p.size - p.bytesWritten).toNat ∧
        (singleRangeRun buf fuel p).req.finished = true ∧
        (singleRangeRun buf fuel p).req.producerRegistered = false ∧
        (singleRangeRun buf fuel p).attached = false ∧
        (singleRangeRun buf fuel p).file.closed = true ∧
        (singleRangeRun buf fuel p).req.everRegistered = p.req.everRegistered := by
  intro fuel
  induction fuel with
  | zero => intro p _ _ _ _ _ hf; omega
  | succ n ih =>
    intro p hatt hw0 hws hpos hsup hf
    set m : Int := min buf (p.size - p.bytesWritten) with hm
    have hk : (p.file.read m).2 = m := by
      rw [PyFile.read_snd, if_neg (by omega)]
      omega
    by_cases hdone : p.bytesWritten = p.size
    · have hk0 : (p.file.read m).2 = 0 := by rw [hk]; omega
      have hres : singleRangeResume buf p =
          stopProducing { p with
            file := (p.file.read m).1
            req := finishRequest (unregisterProducer p.req) } := by
        simp only [singleRangeResume, hatt]
        rw [if_neg (by simp)]
        rw [← hm, hk0]
        simp [hdone]
      have hdet :
          (stopProducing { p with
            file := (p.file.read m).1
            req := finishRequest (unregisterProducer p.req) }).attached = false := rfl
      simp only [singleRangeRun, hres, singleRangeRun_detached buf n _ hdet]
      refine ⟨?_, rfl, rfl, rfl, ?_, rfl⟩
      · simp [stopProducing, finishRequest, unregisterProducer]
        omega
      · simp [stopProducing, PyFile.close_closed]
    · have hmpos : 0 < m := by omega
      have hkne : (p.file.read m).2 ≠ 0 := by omega
      have hp1 : singleRangeResume buf p =
          (if p.bytesWritten + m = p.size then
            stopProducing { p with
              file := (p.file.read m).1
              bytesWritten := p.bytesWritten + (p.file.read m).2
              req := finishRequest (unregisterProducer
                (writeBody p.req (p.file.read m).2.toNat)) }
          else
            { p with
              file := (p.file.read m).1
              bytesWritten := p.bytesWritten + (p.file.read m).2
              req := writeBody p.req (p.file.read m).2.toNat }) := by
        simp only [singleRangeResume, hatt]
        rw [if_neg (by simp)]
        rw [← hm]
        simp only [hkne, if_true, ne_eq, not_false_iff, if_pos]
        by_cases hfin : p.bytesWritten + m = p.size
        · rw [if_pos (by simp [hk, hfin]), if_pos hfin]
        · rw [if_neg (by simp [hk, hfin]), if_neg hfin]
      by_cases hfin : p.bytesWritten + m = p.size
      · rw [if_pos hfin] at hp1
        have hdet : (stopProducing { p with
              file := (p.file.read m).1
              bytesWritten := p.bytesWritten + (p.file.read m).2
              req := finishRequest (unregisterProducer
                (writeBody p.req (p.file.read m).2.toNat)) }).attached = false := rfl
        simp only [singleRangeRun, hp1, singleRangeRun_detached buf n _ hdet]
        refine ⟨?_, rfl, rfl, rfl, ?_, rfl⟩
        · simp [stopProducing, finishRequest, unregisterProducer, writeBody, hk]
          omega
        · simp [stopProducing, PyFile.close_closed]
      · rw [if_neg hfin] at hp1
        obtain ⟨h1, h2, h3, h4, h5, h6⟩ := ih { p with
            file := (p.file.read m).1
            bytesWritten := p.bytesWritten + (p.file.read m).2
            req := writeBody p.req (p.file.read m).2.toNat }
          (by simp [hatt])
          (by simp [hk]; omega)
          (by simp [hk]; omega)
          (by simp [hk, PyFile.read_fst_pos]; omega)
          (by simp [PyFile.read_fst_len]; omega)
          (by simp [hk]; omega)
        simp only [singleRangeRun, hp1]
        refine ⟨?_, h2, h3, h4, h5, ?_⟩
        · rw [h1]
          simp [writeBody, hk]
          omega
        · rw [h6]
          simp [writeBody]

/-! ## Header bookkeeping lemmas -/

theorem getHeaderVal_setResponseCode (r : Request) (c : Nat) (n : String) :
    getHeaderVal (setResponseCode r c) n = getHeaderVal r n := rfl

theorem getHeaderVal_setContentHeaders_length (r : Request) (s : Int)
    (ft fe : Option String) :
    getHeaderVal (setContentHeaders r s ft fe) "content-length" =
      some (toString s) := by
  rcases ft with _ | t <;> rcases fe with _ | e <;> simp only [setContentHeaders]
  · exact getHeaderVal_setHeader_self ..
  · rw [getHeaderVal_setHeader_ne _ _ _ _ (by decide)]
    exact getHeaderVal_setHeader_self ..
  · rw [getHeaderVal_setHeader_ne _ _ _ _ (by decide)]
    exact getHeaderVal_setHeader_self ..
  · rw [getHeaderVal_setHeader_ne _ _ _ _ (by decide),
      getHeaderVal_setHeader_ne _ _ _ _ (by decide)]
    exact getHeaderVal_setHeader_self ..

theorem getHeaderVal_setContentHeaders_range (r : Request) (s : Int)
    (ft fe : Option String) :
    getHeaderVal (setContentHeaders r s ft fe) "content-range" =
      getHeaderVal r "content-range" := by
  rcases ft with _ | t <;> rcases fe with _ | e <;> simp only [setContentHeaders] <;>
    repeat rw [getHeaderVal_setHeader_ne _ _ _ _ (by decide)]

theorem responseCode_setHeader (r : Request) (n v : String) :
    (setHeader r n v).responseCode = r.responseCode := rfl

theorem responseCode_setContentHeaders (r : Request) (s : Int)
    (ft fe : Option String) :
    (setContentHeaders r s ft fe).responseCode = r.responseCode := by
  rcases ft with _ | t <;> rcases fe with _ | e <;>
    simp [setContentHeaders, setHeader]

theorem bodyBytes_setContentHeaders (r : Request) (s : Int)
    (ft fe : Option String) :
    (setContentHeaders r s ft fe).bodyBytes = r.bodyBytes := by
  rcases ft with _ | t <;> rcases fe with _ | e <;>
    simp [setContentHeaders, setHeader]

theorem everRegistered_setContentHeaders (r : Request) (s : Int)
    (ft fe : Option String) :
    (setContentHeaders r s ft fe).everRegistered = r.everRegistered := by
  rcases ft with _ | t <;> rcases fe with _ | e <;>
    simp [setContentHeaders, setHeader]

/-! ## C7: malformed Range headers degrade to a whole-file 200 response -/

/-- C7: whenever `_parseRangeHeader` fails, `makeProducer` answers with
status 200, a Content-Length equal to the full file size and the
whole-file producer, which (run to completion) streams the entire file and
finishes the response; no error is surfaced. -/
theorem malformedRange_wholeFile (S : Int) (ft fe : Option String) (b : String)
    (req : Request) (hdr : String) (err : RangeParseError) (buf : Int) (fuel : Nat)
    (hparse : parseRangeHeader hdr = .error err)
    (hS : 0 ≤ S) (hbuf : 0 < buf) (hfuel : S.toNat < fuel) :
    (makeProducer S ft fe b req (some hdr)).1.responseCode = some 200 ∧
      getHeaderVal (makeProducer S ft fe b req (some hdr)).1 "content-length" =
        some (toString S) ∧
      (makeProducer S ft fe b req (some hdr)).2 = .noRange ∧
      (noRangeRun buf fuel (noRangeStart
          { req := (makeProducer S ft fe b req (some hdr)).1
            file := { len := S } })).req.bodyBytes = req.bodyBytes + S.toNat ∧
      (noRangeRun buf fuel (noRangeStart
          { req := (makeProducer S ft fe b req (some hdr)).1
            file := { len := S } })).req.finished = true := by
  have hmk : makeProducer S ft fe b req (some hdr) =
      (setResponseCode (setContentHeaders req S ft fe) 200, .noRange) := by
    simp [makeProducer, hparse]
  rw [hmk]
  obtain ⟨h1, h2, _, _, _, _⟩ := noRangeRun_streams buf hbuf fuel
    (noRangeStart { req := (setResponseCode (setContentHeaders req S ft fe) 200,
        Producer.noRange).1, file := { len := S } })
    rfl (by simp [noRangeStart]; omega) (by simp [noRangeStart]; omega)
  refine ⟨rfl, ?_, rfl, ?_, h2⟩
  · rw [getHeaderVal_setResponseCode]
    exact getHeaderVal_setContentHeaders_length ..
  · rw [h1]
    simp [noRangeStart, registerProducer, setResponseCode,
      bodyBytes_setContentHeaders]

/-- Witness for C7: `Range: bytes=abc` on a 3-byte file. -/
theorem malformedRange_wholeFile_witness :
    (makeProducer 3 none none "bnd" {} (some "bytes=abc")).1.responseCode =
        some 200 ∧
      getHeaderVal (makeProducer 3 none none "bnd" {} (some "bytes=abc")).1
        "content-length" = some (toString (3 : Int)) ∧
      (makeProducer 3 none none "bnd" {} (some "bytes=abc")).2 = .noRange ∧
      (noRangeRun 2 4 (noRangeStart
          { req := (makeProducer 3 none none "bnd" {} (some "bytes=abc")).1
            file := { len := 3 } })).req.bodyBytes =
        Request.bodyBytes {} + (3 : Int).toNat ∧
      (noRangeRun 2 4 (noRangeStart
          { req := (makeProducer 3 none none "bnd" {} (some "bytes=abc")).1
            file := { len := 3 } })).req.finished = true :=
  malformedRange_wholeFile 3 none none "bnd" {} "bytes=abc" .invalidByteRange 2 4
    rfl (by decide) (by decide) (by decide)

/-! ## C3: single unsatisfiable range -/

/-- C3 counterexample: for a single unsatisfiable range the code does
create a single-range producer and starting it registers it with the
request, contrary to the claim that no producer is ever started. -/
theorem singleUnsatisfiable_starts_producer :
    (makeProducer 500 none none "bnd" {} (some "bytes=1000-2000")).2 =
        .singleRange 0 0 ∧
      (singleRangeStart
        { req := (makeProducer 500 none none "bnd" {} (some "bytes=1000-2000")).1
          file := { len := 500 } }).req.producerRegistered = true := by
  exact ⟨rfl, rfl⟩

/-- C3 as amended: for a single unsatisfiable range the response has
status 416 with `Content-Range: bytes */total` and no body bytes, but a
single-range producer of offset and size zero is started (registered);
when driven it writes nothing and immediately finishes the response. -/
theorem singleUnsatisfiable_416 (S : Int) (ft fe : Option String) (b : String)
    (req : Request) (hdr : String) (start stop : Option Int)
    (buf : Int) (fuel : Nat) (f : PyFile)
    (hparse : parseRangeHeader hdr = .ok [(start, stop)])
    (huns : rangeToOffsetAndSize S start stop = (0, 0))
    (hbuf : 0 < buf) (hfuel : 0 < fuel)
    (hflen : 0 ≤ f.len) :
    (makeProducer S ft fe b req (some hdr)).1.responseCode = some 416 ∧
      getHeaderVal (makeProducer S ft fe b req (some hdr)).1 "content-range" =
        some ("bytes */" ++ toString S) ∧
      (makeProducer S ft fe b req (some hdr)).2 = .singleRange 0 0 ∧
      (singleRangeRun buf fuel (singleRangeStart
          { req := (makeProducer S ft fe b req (some hdr)).1
            file := f })).req.bodyBytes = req.bodyBytes ∧
      (singleRangeRun buf fuel (singleRangeStart
          { req := (makeProducer S ft fe b req (some hdr)).1
            file := f })).req.everRegistered = true ∧
      (singleRangeRun buf fuel (singleRangeStart
          { req := (makeProducer S ft fe b req (some hdr)).1
            file := f })).req.finished = true := by
  have hmk : makeProducer S ft fe b req (some hdr) =
      (setContentHeaders
          (setHeader (setResponseCode req 416) "content-range"
            ("bytes */" ++ toString S)) 0 ft fe,
        .singleRange 0 0) := by
    simp [makeProducer, hparse, doSingleRangeRequest, huns]
  rw [hmk]
  obtain ⟨hBody, hFin, _, _, _, hEver⟩ := singleRangeRun_streams buf hbuf fuel
    (singleRangeStart
      { req := (setContentHeaders
          (setHeader (setResponseCode req 416) "content-range"
            ("bytes */" ++ toString S)) 0 ft fe, Producer.singleRange 0 0).1
        file := f })
    rfl (by simp [singleRangeStart]) (by simp [singleRangeStart])
    (by simp [singleRangeStart, PyFile.seek])
    (by simp [singleRangeStart, PyFile.seek]; omega)
    (by simp [singleRangeStart]; omega)
  refine ⟨?_, ?_, rfl, ?_, ?_, hFin⟩
  · rw [responseCode_setContentHeaders]
    rfl
  · rw [getHeaderVal_setContentHeaders_range]
    exact getHeaderVal_setHeader_self ..
  · rw [hBody]
    simp [singleRangeStart, registerProducer, writeBody,
      bodyBytes_setContentHeaders, setHeader, setResponseCode]
  · rw [hEver]
    rfl

/-- Witness for the amended C3: `Range: bytes=1000-2000` on a 500-byte
file. -/
theorem singleUnsatisfiable_416_witness :
    (makeProducer 500 none none "bnd" {} (some "bytes=1000-2000")).1.responseCode =
        some 416 ∧
      getHeaderVal (makeProducer 500 none none "bnd" {}
          (some "bytes=1000-2000")).1 "content-range" =
        some ("bytes */" ++ toString (500 : Int)) ∧
      (makeProducer 500 none none "bnd" {} (some "bytes=1000-2000")).2 =
        .singleRange 0 0 ∧
      (singleRangeRun 8 1 (singleRangeStart
          { req := (makeProducer 500 none none "bnd" {}
              (some "bytes=1000-2000")).1
            file := { len := 500 } })).req.bodyBytes = Request.bodyBytes {} ∧
      (singleRangeRun 8 1 (singleRangeStart
          { req := (makeProducer 500 none none "bnd" {}
              (some "bytes=1000-2000")).1
            file := { len := 500 } })).req.everRegistered = true ∧
      (singleRangeRun 8 1 (singleRangeStart
          { req := (makeProducer 500 none none "bnd" {}
              (some "bytes=1000-2000")).1
            file := { len := 500 } })).req.finished = true :=
  singleUnsatisfiable_416 500 none none "bnd" {} "bytes=1000-2000"
    (some 1000) (some 2000) 8 1 { len := 500 } rfl rfl
    (by decide) (by decide) (by decide)

/-! ## C4: multiple ranges, none satisfiable -/

/-- C4 at its failing input: `Range: bytes=1000-2000,3000-4000` on a
500-byte file.  The code sets status 416 with `Content-Length: 0` and
`Content-Range: bytes */500` as the claim says, but it then hands the pair
`([], '')` to `MultipleRangeStaticProducer`, whose `start` raises
`ValueError` while unpacking the empty list, so a GET request aborts with
an unhandled exception instead of completing the 416 response. -/
theorem multiUnsatisfiable_startRaises :
    (makeProducer 500 none none "bnd" {}
        (some "bytes=1000-2000,3000-4000")).1.responseCode = some 416 ∧
      getHeaderVal (makeProducer 500 none none "bnd" {}
          (some "bytes=1000-2000,3000-4000")).1 "content-length" = some "0" ∧
      getHeaderVal (makeProducer 500 none none "bnd" {}
          (some "bytes=1000-2000,3000-4000")).1 "content-range" =
        some "bytes */500" ∧
      (makeProducer 500 none none "bnd" {}
          (some "bytes=1000-2000,3000-4000")).2 =
        .multipleRange [.emptyList, .pyStr ""] ∧
      multiStart (makeProducer 500 none none "bnd" {}
          (some "bytes=1000-2000,3000-4000")).1 { len := 500 }
        [.emptyList, .pyStr ""] = .error .valueError :=
  ⟨rfl, rfl, rfl, rfl, rfl⟩


/-! ## C9: directory listing order -/

theorem lexLe_cons_iff (x y : Char) (as bs : List Char) :
    lexLe (x :: as) (y :: bs) = true ↔ x < y ∨ (x = y ∧ lexLe as bs = true) := by
  simp only [lexLe]
  split_ifs with h1 h2
  · simp [h1]
  · simp [h1, h2]
  · simp [h1, h2]

theorem lexLe_trans : ∀ a b c : List Char,
    lexLe a b = true → lexLe b c = true → lexLe a c = true
  | [], _, _, _, _ => rfl
  | _ :: _, [], _, hab, _ => by simp [lexLe] at hab
  | _ :: _, _ :: _, [], _, hbc => by simp [lexLe] at hbc
  | x :: as, y :: bs, z :: cs, hab, hbc => by
    rw [lexLe_cons_iff] at hab hbc ⊢
    rcases hab with h1 | ⟨h1, r1⟩
    · rcases hbc with h2 | ⟨h2, _⟩
      · exact Or.inl (lt_trans h1 h2)
      · exact Or.inl (h2 ▸ h1)
    · rcases hbc with h2 | ⟨h2, r2⟩
      · exact Or.inl (h1 ▸ h2)
      · exact Or.inr ⟨h1.trans h2, lexLe_trans as bs cs r1 r2⟩

theorem lexLe_total : ∀ a b : List Char, lexLe a b = true ∨ lexLe b a = true
  | [], _ => Or.inl rfl
  | _ :: _, [] => Or.inr rfl
  | x :: as, y :: bs => by
    rcases lt_trichotomy x y with h | h | h
    · exact Or.inl ((lexLe_cons_iff ..).mpr (Or.inl h))
    · rcases lexLe_total as bs with r | r
      · exact Or.inl ((lexLe_cons_iff ..).mpr (Or.inr ⟨h, r⟩))
      · exact Or.inr ((lexLe_cons_iff ..).mpr (Or.inr ⟨h.symm, r⟩))
    · exact Or.inr ((lexLe_cons_iff ..).mpr (Or.inl h))

/-- The directory rows produced by `_getFilesAndDirectories` are exactly
the directory entries, in iteration order. -/
theorem gFD_dirs_srcNames (q e : String → String) (cT cE : List (String × String))
    (dT : String) : ∀ l : List DirEntry,
    ((getFilesAndDirectories q e cT cE dT l).1).map Row.srcName =
      (l.filter (fun x => x.isdir)).map DirEntry.name := by
  intro l
  induction l with
  | nil => rfl
  | cons a t ih =>
    cases ha : a.isdir
    · cases hs : a.sizeOk <;> simp [getFilesAndDirectories, ha, hs, ih]
    · simp [getFilesAndDirectories, ha, ih]

/-- The file rows produced by `_getFilesAndDirectories` are exactly the
non-directory entries whose stat succeeded, in iteration order. -/
theorem gFD_files_srcNames (q e : String → String) (cT cE : List (String × String))
    (dT : String) : ∀ l : List DirEntry,
    ((getFilesAndDirectories q e cT cE dT l).2).map Row.srcName =
      (l.filter (fun x => !x.isdir && x.sizeOk)).map DirEntry.name := by
  intro l
  induction l with
  | nil => rfl
  | cons a t ih =>
    cases ha : a.isdir
    · cases hs : a.sizeOk <;> simp [getFilesAndDirectories, ha, hs, ih]
    · simp [getFilesAndDirectories, ha, ih]

/-- C9 counterexample: with no caller subset, a directory named `b` is
rendered before a file named `a`, so the table is not sorted by name
ascending; with a caller subset `[f, d]` where `f` is a file and `d` a
directory, the rendered order is `[d, f]`, not the caller order. -/
theorem listerTable_order_counterexample :
    ((listerTable id id [] [] "text/html"
          [⟨"a", false, true, 10⟩, ⟨"b", true, true, 0⟩]
          (fun n => ⟨n, false, true, 0⟩) none).map Row.srcName = ["b", "a"] ∧
        lexLe "b".data "a".data = false) ∧
      ((listerTable id id [] [] "text/html"
          [⟨"f", false, true, 10⟩, ⟨"d", true, true, 0⟩]
          (fun n => if n == "d" then ⟨"d", true, true, 0⟩ else ⟨"f", false, true, 0⟩)
          (some ["f", "d"])).map Row.srcName = ["d", "f"] ∧
        (["d", "f"] : List String) ≠ ["f", "d"]) := by
  exact ⟨⟨rfl, rfl⟩, ⟨rfl, by decide⟩⟩

/-- C9 as amended: the rendered table always lists the directory rows
first and then the file rows.  With no caller subset each group is sorted
by name ascending; with a caller subset each group preserves the relative
order of the caller-supplied names. -/
theorem listerTable_grouped (quote escape : String → String)
    (cT cE : List (String × String)) (dT : String)
    (children : List DirEntry) (childOf : String → DirEntry) (ds : List String) :
    (listerTable quote escape cT cE dT children childOf none =
        (getFilesAndDirectories quote escape cT cE dT
          (renderDirectory children childOf none)).1 ++
        (getFilesAndDirectories quote escape cT cE dT
          (renderDirectory children childOf none)).2) ∧
      List.Pairwise (fun a b => lexLe a.data b.data = true)
        (((getFilesAndDirectories quote escape cT cE dT
          (renderDirectory children childOf none)).1).map Row.srcName) ∧
      List.Pairwise (fun a b => lexLe a.data b.data = true)
        (((getFilesAndDirectories quote escape cT cE dT
          (renderDirectory children childOf none)).2).map Row.srcName) ∧
      (listerTable quote escape cT cE dT children childOf (some ds) =
        (getFilesAndDirectories quote escape cT cE dT
          (renderDirectory children childOf (some ds))).1 ++
        (getFilesAndDirectories quote escape cT cE dT
          (renderDirectory children childOf (some ds))).2) ∧
      ((getFilesAndDirectories quote escape cT cE dT
          (renderDirectory children childOf (some ds))).1).map Row.srcName =
        ((ds.map childOf).filter (fun x => x.isdir)).map DirEntry.name ∧
      ((getFilesAndDirectories quote escape cT cE dT
          (renderDirectory children childOf (some ds))).2).map Row.srcName =
        ((ds.map childOf).filter (fun x => !x.isdir && x.sizeOk)).map DirEntry.name := by
  haveI htot : IsTotal DirEntry (fun a b => nameLe a b = true) :=
    ⟨fun a b => lexLe_total a.name.data b.name.data⟩
  haveI htr : IsTrans DirEntry (fun a b => nameLe a b = true) :=
    ⟨fun _ _ _ hab hbc => lexLe_trans _ _ _ hab hbc⟩
  have hsorted := List.sorted_insertionSort
    (fun a b : DirEntry => nameLe a b = true) children
  simp only [nameLe, List.Sorted] at hsorted
  refine ⟨rfl, ?_, ?_, rfl, ?_, ?_⟩
  · rw [gFD_dirs_srcNames, List.pairwise_map]
    exact List.Pairwise.sublist (List.filter_sublist _) hsorted
  · rw [gFD_files_srcNames, List.pairwise_map]
    exact List.Pairwise.sublist (List.filter_sublist _) hsorted
  · rw [gFD_dirs_srcNames]
    rfl
  · rw [gFD_files_srcNames]
    rfl

/-! ## The multi-range producer streams each part in full -/

/-- Convert a plan triple into the producer rangeInfo item. -/
def toItem (t : String × Int × Int) : PyRangeInfoItem := .triple t.1 t.2.1 t.2.2

/-- Number of response-body bytes contributed by the given parts (their
separators plus their file bytes) and the closing boundary `fb`. -/
def partsWeight (fb : String) : List (String × Int × Int) → Int
  | [] => (fb.length : Int)
  | t :: ts => (t.1.length : Int) + t.2.2 + partsWeight fb ts

theorem partsWeight_nonneg (fb : String) :
    ∀ parts : List (String × Int × Int),
      (∀ t ∈ parts, 0 ≤ t.2.2) → 0 ≤ partsWeight fb parts
  | [], _ => by simp [partsWeight]
  | t :: ts, h => by
    have h1 := h t (by simp)
    have h2 := partsWeight_nonneg fb ts (fun u hu => h u (by simp [hu]))
    simp only [partsWeight]
    omega

/-- Running the `resumeProducing` loop of `MultipleRangeStaticProducer`
from the start of a part, when all part offsets are non-negative, the
whole remaining multipart body fits in the buffer and the file can supply
every requested byte, consumes every remaining part, reads exactly `size`
file bytes for each, and exits the loop with `done = True`. -/
theorem multiLoop_runs (buf : Int) (fb : String) :
    ∀ (parts : List (String × Int × Int)) (cur : String × Int × Int)
      (st : MultiState) (d : Int) (fuel : Nat),
      st.attached = true →
      st.partBoundary = some cur.1 →
      st.partSize = cur.2.2 →
      st.partBytesWritten = 0 →
      st.file.pos = cur.2.1 →
      st.items = parts.map toItem ++ [toItem (fb, 0, 0)] →
      0 ≤ cur.2.2 → cur.2.1 + cur.2.2 ≤ st.file.len →
      (∀ t ∈ parts, 0 ≤ t.2.1 ∧ 0 ≤ t.2.2 ∧ t.2.1 + t.2.2 ≤ st.file.len) →
      d + (cur.1.length : Int) + cur.2.2 + partsWeight fb parts < buf →
      0 ≤ d →
      parts.length + 2 ≤ fuel →
      ∃ stf dOut,
        multiLoop buf fuel st d = .ok (stf, dOut, true, true) ∧
        dOut = d + (cur.1.length : Int) + cur.2.2 + partsWeight fb parts ∧
        stf.completedParts = st.completedParts ++ (cur :: parts).map (fun t => t.2.2) ∧
        stf.req = st.req ∧
        stf.attached = true := by
  intro parts
  induction parts with
  | nil =>
    intro cur st d fuel hatt hb hsz hw0 hpos hitems hcur0 hcurlen _ hfit _ hfuel
    match fuel, hfuel with
    | g + 2, _ =>
    have hfb : (0 : Int) ≤ (fb.length : Int) := by positivity
    have hd : d < buf := by simp only [partsWeight] at hfit; omega
    have hn : min (buf - (d + (cur.1.length : Int)))
        (st.partSize - st.partBytesWritten) = cur.2.2 := by
      rw [hsz, hw0]
      simp only [partsWeight] at hfit
      omega
    have hk : (st.file.read (min (buf - (d + (cur.1.length : Int)))
        (st.partSize - st.partBytesWritten))).2 = cur.2.2 := by
      rw [hn, PyFile.read_snd, hpos]
      omega
    simp only [multiLoop, hb, if_pos hd, hk, hatt]
    rw [hitems]
    simp only [List.map_nil, List.nil_append, toItem, nextRange, hw0, hsz]
    rw [if_pos ⟨trivial, by omega⟩]
    have hd2 : d + (cur.1.length : Int) + cur.2.2 < buf := by
      simp only [partsWeight] at hfit
      omega
    simp only [multiLoop, if_pos hd2]
    have hd3 : 0 < buf - (d + (cur.1.length : Int) + cur.2.2 + (fb.length : Int)) := by
      simp only [partsWeight] at hfit
      omega
    have hk2 : ∀ f2 : PyFile, (f2.read (min
        (buf - (d + (cur.1.length : Int) + cur.2.2 + (fb.length : Int)))
        ((0 : Int) - 0))).2 = 0 := by
      intro f2
      rw [PyFile.read_snd]
      rw [if_neg (by omega)]
      omega
    simp only [hk2, nextRange]
    rw [if_pos ⟨trivial, by omega⟩]
    refine ⟨_, _, rfl, ?_, ?_, rfl, rfl⟩
    · simp only [partsWeight]
      omega
    · simp [List.map_cons, List.map_nil]
  | cons q qs ih =>
    intro cur st d fuel hatt hb hsz hw0 hpos hitems hcur0 hcurlen hparts hfit hd0 hfuel
    match fuel, hfuel with
    | g + 1, hf =>
    have hq := hparts q (by simp)
    have hqs : ∀ t ∈ qs, 0 ≤ t.2.1 ∧ 0 ≤ t.2.2 ∧ t.2.1 + t.2.2 ≤ st.file.len :=
      fun t ht => hparts t (by simp [ht])
    have hwnn : 0 ≤ partsWeight fb qs :=
      partsWeight_nonneg fb qs (fun t ht => (hqs t ht).2.1)
    have hd : d < buf := by
      simp only [partsWeight] at hfit
      have : (0 : Int) ≤ (cur.1.length : Int) := by positivity
      have : (0 : Int) ≤ (q.1.length : Int) := by positivity
      omega
    have hn : min (buf - (d + (cur.1.length : Int)))
        (st.partSize - st.partBytesWritten) = cur.2.2 := by
      rw [hsz, hw0]
      simp only [partsWeight] at hfit
      have : (0 : Int) ≤ (q.1.length : Int) := by positivity
      omega
    have hk : (st.file.read (min (buf - (d + (cur.1.length : Int)))
        (st.partSize - st.partBytesWritten))).2 = cur.2.2 := by
      rw [hn, PyFile.read_snd, hpos]
      omega
    simp only [multiLoop, hb, if_pos hd, hk, hatt]
    rw [hitems]
    simp only [List.map_cons, List.cons_append, toItem, nextRange, hw0, hsz]
    rw [if_pos ⟨trivial, by omega⟩]
    obtain ⟨stf, dOut, heq, hdOut, h1, h2, h3⟩ := ih q
      { req := st.req, attached := true,
        file := (st.file.read ((buf - (d + (cur.1.length : Int))) ⊓ (cur.2.2 - 0))).1.seek q.2.1,
        items := List.map toItem qs ++ [PyRangeInfoItem.triple fb 0 0],
        partBoundary := some q.1, partSize := q.2.2, partBytesWritten := 0,
        completedParts := st.completedParts ++ [0 + cur.2.2] }
      (d + (cur.1.length : Int) + cur.2.2) g
      rfl rfl rfl rfl
      (by exact PyFile.seek_pos _ _ hq.1)
      rfl
      hq.2.1
      (by simp only [PyFile.seek_len, PyFile.read_fst_len]; exact hq.2.2)
      (by
        intro t ht
        simp only [PyFile.seek_len, PyFile.read_fst_len]
        exact hqs t ht)
      (by simp only [partsWeight] at hfit; omega)
      (by omega)
      (by simp only [List.length_cons] at hf; omega)
    refine ⟨stf, dOut, heq, ?_, ?_, ?_, h3⟩
    · rw [hdOut]
      simp only [partsWeight]
      ring
    · rw [h1]
      simp
    · exact h2

/-- A `resumeProducing` call of `MultipleRangeStaticProducer`, entered
right after `start` on a plan whose part offsets are non-negative, whose
full multipart body fits in the buffer, and whose file can supply every
requested byte, reads exactly `size` file bytes for every part of the
plan, writes the whole body, and finishes the response. -/
theorem multiResume_streams (buf : Int) (fb : String)
    (p0 : String × Int × Int) (rest : List (String × Int × Int))
    (req : Request) (file : PyFile) (fuel : Nat) (st : MultiState)
    (hstart : multiStart req file
      (((p0 :: rest).map toItem) ++ [toItem (fb, 0, 0)]) = .ok st)
    (hp0 : 0 ≤ p0.2.1 ∧ 0 ≤ p0.2.2 ∧ p0.2.1 + p0.2.2 ≤ file.len)
    (hrest : ∀ t ∈ rest, 0 ≤ t.2.1 ∧ 0 ≤ t.2.2 ∧ t.2.1 + t.2.2 ≤ file.len)
    (hfit : (p0.1.length : Int) + p0.2.2 + partsWeight fb rest < buf)
    (hfuel : rest.length + 2 ≤ fuel) :
    ∃ stf, multiResume buf fuel st = .ok stf ∧
      stf.completedParts = (p0 :: rest).map (fun t => t.2.2) ∧
      stf.req.bodyBytes = req.bodyBytes +
        ((p0.1.length : Int) + p0.2.2 + partsWeight fb rest).toNat ∧
      stf.req.finished = true ∧
      stf.attached = false := by
  have hst : st =
      { req := registerProducer req
        file := file.seek p0.2.1
        items := rest.map toItem ++ [toItem (fb, 0, 0)]
        partBoundary := some p0.1
        partSize := p0.2.2
        partBytesWritten := 0 } := by
    simp only [List.map_cons, List.cons_append, multiStart, toItem, nextRange,
      Except.ok.injEq] at hstart
    exact hstart.symm
  subst hst
  obtain ⟨stf, dOut, heq, hdOut, h1, h2, h3⟩ := multiLoop_runs buf fb rest p0
    { req := registerProducer req
      file := file.seek p0.2.1
      items := rest.map toItem ++ [toItem (fb, 0, 0)]
      partBoundary := some p0.1
      partSize := p0.2.2
      partBytesWritten := 0 }
    0 fuel
    rfl rfl rfl rfl
    (by exact PyFile.seek_pos _ _ hp0.1)
    rfl
    hp0.2.1
    (by simp only [PyFile.seek_len]; exact hp0.2.2)
    (by
      intro t ht
      simp only [PyFile.seek_len]
      exact hrest t ht)
    (by omega)
    le_rfl
    hfuel
  simp only [multiResume]
  rw [if_neg (by simp)]
  simp only [heq]
  refine ⟨_, rfl, ?_, ?_, rfl, rfl⟩
  · rw [h1]
    simp
  · have hreq : stf.req = registerProducer req := h2
    simp only [writeBody, finishRequest, unregisterProducer, hreq, hdOut,
      registerProducer]
    omega

/-- Every part separator recorded by `_doMultipleRangeRequest` embeds the
Content-Range header of exactly that part's offset and size. -/
theorem buildRangeInfo_sep (S : Int) (bnd ct : String) :
    ∀ (ranges : List (Option Int × Option Int))
      (t : String × Int × Int), t ∈ (buildRangeInfo S bnd ct ranges).1 →
      t.1 = partSeparator bnd ct (contentRange t.2.1 t.2.2 S) := by
  intro ranges
  induction ranges with
  | nil => intro t ht; simp [buildRangeInfo] at ht
  | cons r rs ih =>
    intro t ht
    simp only [buildRangeInfo] at ht
    split_ifs at ht with h
    · exact ih t ht
    · rcases List.mem_cons.mp ht with h1 | h1
      · subst h1; rfl
      · exact ih t h1

/-! ## C5: Content-Range arithmetic against the bytes streamed -/

/-- C5 counterexample: with the transport buffer size the source uses
(65536 bytes), the request `Range: bytes=0-65399,0-9` on a 70000-byte
file produces a 206 multipart response whose second part carries
`Content-Range: bytes 0-9/70000` (so `b - a + 1 = 10`), yet the producer
consumes all 70000 bytes of the file for that part: the first part
completes at 65481 accumulated bytes, appending the second separator (77
bytes) pushes `dataLength` past the buffer, and the code calls
`file.read` with the negative count `-22`, which reads to end of file. -/
theorem multiRange_overRead_counterexample :
    (makeProducer 70000 none none "0123456789abcdef" {}
        (some "bytes=0-65399,0-9")).1.responseCode = some 206 ∧
      (makeProducer 70000 none none "0123456789abcdef" {}
          (some "bytes=0-65399,0-9")).2 =
        .multipleRange
          [.triple (partSeparator "0123456789abcdef" "bytes"
              (contentRange 0 65400 70000)) 0 65400,
           .triple (partSeparator "0123456789abcdef" "bytes"
              (contentRange 0 10 70000)) 0 10,
           .triple "\r\n--0123456789abcdef--\r\n" 0 0] ∧
      contentRange 0 10 70000 = contentRangeOf 0 9 70000 ∧
      (9 : Int) - 0 + 1 = 10 ∧
      ((multiStart (makeProducer 70000 none none "0123456789abcdef" {}
            (some "bytes=0-65399,0-9")).1 { len := 70000 }
          [.triple (partSeparator "0123456789abcdef" "bytes"
              (contentRange 0 65400 70000)) 0 65400,
           .triple (partSeparator "0123456789abcdef" "bytes"
              (contentRange 0 10 70000)) 0 10,
           .triple "\r\n--0123456789abcdef--\r\n" 0 0]).bind
        (multiResume 65536 5)).map
          (fun s => (s.partSize, s.partBytesWritten, s.completedParts,
            s.req.bodyBytes)) =
        .ok (10, 70000, [65400], 135558) ∧
      (70000 : Int) ≠ 10 := by
  exact ⟨rfl, rfl, rfl, rfl, rfl, by decide⟩

/-- C5 as amended: the Content-Range header emitted for a range is
`bytes a-b/S` with `a = offset` and `b = offset + size - 1`, so
`b - a + 1 = size`, and each part separator of a multipart plan embeds the
Content-Range of exactly that part's offset and size.  The bytes actually
streamed equal `b - a + 1` within the scope the counterexample forces:
for a single range, provided the resolved offset is non-negative (an
overlong suffix yields a negative offset, on which the producer's seek
raises `IOError` instead of streaming); for a part of a multi-range
response, provided the whole multipart body fits within one transport
buffer — otherwise a separator append can push the accumulated chunk past
the buffer size and the code reads to end of file, streaming more than
`b - a + 1` bytes for that part. -/
theorem contentRange_roundTrip (offset size S : Int) (req : Request) (f : PyFile)
    (buf : Int) (fuel : Nat)
    (bnd ct : String) (ranges : List (Option Int × Option Int))
    (fb : String) (p0 : String × Int × Int) (rest : List (String × Int × Int))
    (req2 : Request) (file2 : PyFile) (buf2 : Int) (fuel2 : Nat) (st2 : MultiState)
    (hoff : 0 ≤ offset) (hsz : 0 ≤ size) (hbuf : 0 < buf)
    (hfuel : size.toNat < fuel) (hsup : offset + size ≤ f.len)
    (hstart2 : multiStart req2 file2
      (((p0 :: rest).map toItem) ++ [toItem (fb, 0, 0)]) = .ok st2)
    (hp0 : 0 ≤ p0.2.1 ∧ 0 ≤ p0.2.2 ∧ p0.2.1 + p0.2.2 ≤ file2.len)
    (hrest : ∀ t ∈ rest, 0 ≤ t.2.1 ∧ 0 ≤ t.2.2 ∧ t.2.1 + t.2.2 ≤ file2.len)
    (hfit : (p0.1.length : Int) + p0.2.2 + partsWeight fb rest < buf2)
    (hfuel2 : rest.length + 2 ≤ fuel2) :
    contentRange offset size S = contentRangeOf offset (offset + size - 1) S ∧
      (offset + size - 1) - offset + 1 = size ∧
      (singleRangeRun buf fuel (singleRangeStart
          { req := req, file := f, offset := offset, size := size })).req.bodyBytes =
        req.bodyBytes + size.toNat ∧
      (singleRangeRun buf fuel (singleRangeStart
          { req := req, file := f, offset := offset, size := size })).req.finished =
        true ∧
      (∀ t ∈ (buildRangeInfo S bnd ct ranges).1,
        t.1 = partSeparator bnd ct (contentRange t.2.1 t.2.2 S)) ∧
      (multiResume buf2 fuel2 st2).map
          (fun s => (s.completedParts, s.req.finished)) =
        .ok ((p0 :: rest).map (fun t => t.2.2), true) := by
  have hneg : ¬ offset < 0 := by omega
  obtain ⟨hBody, hFin, _, _, _, _⟩ := singleRangeRun_streams buf hbuf fuel
    (singleRangeStart { req := req, file := f, offset := offset, size := size })
    rfl (by simp [singleRangeStart]) (by simp [singleRangeStart]; omega)
    (by simp [singleRangeStart, PyFile.seek, hneg])
    (by simp [singleRangeStart, PyFile.seek_len]; omega)
    (by simp [singleRangeStart]; omega)
  obtain ⟨stf, heq, h1, _, h3, _⟩ := multiResume_streams buf2 fb p0 rest req2
    file2 fuel2 st2 hstart2 hp0 hrest hfit hfuel2
  refine ⟨rfl, by omega, ?_, hFin, buildRangeInfo_sep S bnd ct ranges, ?_⟩
  · rw [hBody]
    simp [singleRangeStart, registerProducer]
  · rw [heq]
    simp [Except.map, h1, h3]

/-- Witness for the amended C5: the range `bytes 1-2/5` streams exactly 2
bytes, and a one-part multipart plan over the same file reads exactly 2
bytes for its part. -/
theorem contentRange_roundTrip_witness :
    contentRange 1 2 5 = contentRangeOf 1 (1 + 2 - 1) 5 ∧
      (1 + 2 - 1 : Int) - 1 + 1 = 2 ∧
      (singleRangeRun 16 3 (singleRangeStart
          { req := {}, file := { len := 5 }, offset := 1, size := 2 })).req.bodyBytes =
        Request.bodyBytes {} + (2 : Int).toNat ∧
      (singleRangeRun 16 3 (singleRangeStart
          { req := {}, file := { len := 5 }, offset := 1, size := 2 })).req.finished =
        true ∧
      (∀ t ∈ (buildRangeInfo 5 "bnd" "bytes" [(some 1, some 2)]).1,
        t.1 = partSeparator "bnd" "bytes" (contentRange t.2.1 t.2.2 5)) ∧
      (multiResume 100 2
          { req := registerProducer {}
            file := { len := 5, pos := 1 }
            items := [toItem ("end", 0, 0)]
            partBoundary := some "sep"
            partSize := 2
            partBytesWritten := 0 }).map
          (fun s => (s.completedParts, s.req.finished)) =
        .ok (((("sep", 1, 2) : String × Int × Int) :: []).map (fun t => t.2.2),
          true) :=
  contentRange_roundTrip 1 2 5 {} { len := 5 } 16 3 "bnd" "bytes"
    [(some 1, some 2)] "end" ("sep", 1, 2) [] {} { len := 5 } 100 2
    { req := registerProducer {}
      file := { len := 5, pos := 1 }
      items := [toItem ("end", 0, 0)]
      partBoundary := some "sep"
      partSize := 2
      partBytesWritten := 0 }
    (by decide) (by decide) (by decide) (by decide) (by decide)
    rfl (by decide) (by simp) (by decide) (by decide)

end TwistedStatic
